import Mathlib

/-!
A shallow embedding of the `LastOnlineList` falcon resource from
`src/anna_app.py` (anna-bot-falcon-server), together with proofs about its
write path (`on_post`), its read path (`on_get`), and the in-memory store
`server_user_list`.

Modelling conventions:
* Decoded JSON documents are values of the inductive `Json`.  Python `dict`s
  are association lists with Python's insertion-order / update-in-place
  semantics (`dictInsert`, `dictGet?`).
* `json.loads` is modelled by a fueled recursive-descent parser
  (`pyJsonParse`) over the grammar that Python's `json` module accepts:
  null, booleans, numbers, strings with escapes (surrogate pairs combined),
  arrays, objects, and the non-standard NaN, Infinity and -Infinity
  constants that `json.loads` accepts by default.
* `jsonschema.validate` against the draft-04 schema of
  `LastOnlineList.post_json_schema` is the boolean `schemaValidate`; note
  that in draft-04 the keywords `required` and `properties` apply only to
  object instances, so a non-object payload vacuously satisfies this schema.
* Machine-level concerns (bytes, HTTP transport) are outside the model; the
  request body is taken as an already UTF-8-decoded string, and response
  statuses are the numeric codes of the falcon constants used by the source.
-/

/-- A decoded JSON value, as produced by Python's `json.loads`.  Numbers
without fraction or exponent are integers (`num`); other numeric literals
are kept as their lexeme (`fnum`), since the source never inspects numbers.
Object fields are an association list in insertion order with unique keys,
mirroring a Python `dict`. -/
inductive Json where
  | null : Json
  | bool : Bool → Json
  | num : Int → Json
  | fnum : String → Json
  | str : String → Json
  | arr : List Json → Json
  | obj : List (String × Json) → Json

/-- The in-memory store `self.server_user_list`: a Python dict from server id
strings to the (still JSON-encoded) list of user records. -/
def Store : Type := List (String × Json)

/-- Python dict update `d[k] = v`: if the key is present its value is updated
in place (insertion position kept), otherwise the pair is appended. -/
def dictInsert (d : List (String × Json)) (k : String) (v : Json) :
    List (String × Json) :=
  if d.any (fun p => p.1 == k) then
    d.map (fun p => if p.1 == k then (k, v) else p)
  else
    d ++ [(k, v)]

/-- Python dict lookup `d.get(k)` / `k in d`. -/
def dictGet? (d : List (String × Json)) (k : String) : Option Json :=
  (d.find? (fun p => p.1 == k)).map (fun p => p.2)

/-- The dict built from a list of key/value pairs in order, as by a Python
dict comprehension or dict literal (later duplicates overwrite earlier). -/
def buildDict (l : List (String × Json)) : Store :=
  l.foldl (fun d p => dictInsert d p.1 p.2) []

/-- The value attached to the last pair of `l` whose key is `k`, if any. -/
def lastVal (l : List (String × Json)) (k : String) : Option Json :=
  l.foldl (fun acc p => if p.1 == k then some p.2 else acc) none

/-- Python `fs[k]` on a dict known to hold the key; `.null` stands in for the
(unreachable after validation) missing-key case. -/
def getItem (fs : List (String × Json)) (k : String) : Json :=
  match dictGet? fs k with
  | some v => v
  | none => Json.null

def asObj : Json → List (String × Json)
  | Json.obj fs => fs
  | _ => []

def asString : Json → String
  | Json.str s => s
  | _ => ""

def asArr : Json → List Json
  | Json.arr l => l
  | _ => []

def isObjJson : Json → Bool
  | Json.obj _ => true
  | _ => false

def isJsonStr : Json → Bool
  | Json.str _ => true
  | _ => false

/-- Python `s == v` where `s` is a `str` and `v` an arbitrary decoded value:
equality holds only when `v` is a string with the same contents. -/
def jsonEqStr (s : String) : Json → Bool
  | Json.str t => s == t
  | _ => false

/- ### The JSON schema of `LastOnlineList.post_json_schema` -/

/-- Membership test of draft-04 `required`. -/
def jHasKey (fs : List (String × Json)) (k : String) : Bool :=
  (dictGet? fs k).isSome

/-- Draft-04 `properties`: the sub-schema for key `k` applies only when the
property is present. -/
def jPropOk (fs : List (String × Json)) (k : String) (check : Json → Bool) :
    Bool :=
  match dictGet? fs k with
  | some v => check v
  | none => true

def isDigitCh (c : Char) : Bool := '0' ≤ c && c ≤ '9'

/-- One or more characters forming `[1-9][0-9]+` (note: at least TWO digits,
the source schema uses `+`, not `*`). -/
def serverIdCore (cs : List Char) : Bool :=
  match cs with
  | [] => false
  | c :: rest => ('1' ≤ c && c ≤ '9') && !rest.isEmpty && rest.all isDigitCh

/-- `re.search("^[1-9][0-9]+$", s)` succeeds: the whole string is of the core
form, or of the core form followed by a single trailing newline (Python `$`
also matches just before a final newline). -/
def matchesServerIdPat (s : String) : Bool :=
  serverIdCore s.data ||
    (s.data.getLast? == some '\n' && serverIdCore s.data.dropLast)

/-- The schema of one element of `users`: an object required to carry the
three string fields `username`, `icon_url`, `last_seen_time`. -/
def validUserItem : Json → Bool
  | Json.obj fs =>
      (jHasKey fs "username" && jHasKey fs "icon_url" &&
        jHasKey fs "last_seen_time") &&
      (jPropOk fs "username" isJsonStr && jPropOk fs "icon_url" isJsonStr &&
        jPropOk fs "last_seen_time" isJsonStr)
  | _ => false

/-- The sub-schema of the `server_id` property: type string and the pattern
`^[1-9][0-9]+$`. -/
def serverIdPropOk : Json → Bool
  | Json.str s => matchesServerIdPat s
  | _ => false

/-- The sub-schema of the `users` property: an array of `validUserItem`. -/
def usersPropOk : Json → Bool
  | Json.arr us => us.all validUserItem
  | _ => false

/-- The schema of one element of `servers`. -/
def validServerItem : Json → Bool
  | Json.obj fs =>
      (jHasKey fs "server_id" && jHasKey fs "users") &&
      jPropOk fs "server_id" serverIdPropOk &&
      jPropOk fs "users" usersPropOk
  | _ => false

/-- The sub-schema of the `servers` property. -/
def serversSchemaOk : Json → Bool
  | Json.arr l => l.all validServerItem
  | _ => false

/-- `jsonschema.validate(data, post_json_schema)` succeeds.  The top-level
schema constrains object instances through `required` and `properties`; per
draft-04 both keywords are ignored on non-object instances, so any non-object
validates. -/
def schemaValidate : Json → Bool
  | Json.obj fs =>
      (jHasKey fs "servers" && jHasKey fs "auth_token") &&
      jPropOk fs "servers" serversSchemaOk &&
      jPropOk fs "auth_token" isJsonStr
  | j => !(isObjJson j)

/- ### Responses and the write path -/

/-- An HTTP response as the handlers assemble it: numeric status, plain body,
and the content type when the handler sets one. -/
structure Response where
  status : Nat
  body : String
  contentType : Option String
deriving DecidableEq

/-- The uncaught Python exceptions the write path can raise. -/
inductive PyErr where
  | typeError : PyErr
deriving DecidableEq

/-- Outcome of a request: a normal response together with the store state
after the handler returns, or an uncaught exception propagating out of the
handler. -/
inductive PostOutcome where
  | normal : Store → Response → PostOutcome
  | uncaught : PyErr → PostOutcome

def PostOutcome.statusOf : PostOutcome → Option Nat
  | PostOutcome.normal _ r => some r.status
  | PostOutcome.uncaught _ => none

def PostOutcome.bodyOf : PostOutcome → Option String
  | PostOutcome.normal _ r => some r.body
  | PostOutcome.uncaught _ => none

def PostOutcome.storeOf : PostOutcome → Option Store
  | PostOutcome.normal s _ => some s
  | PostOutcome.uncaught _ => none

/-- The key/value pairs of the dict comprehension on line 119 of the source:
for every entry of `servers`, its `server_id` paired with its `users`. -/
def serversOf (j : Json) : List (String × Json) :=
  (asArr (getItem (asObj j) "servers")).map
    (fun s => (asString (getItem (asObj s) "server_id"),
               getItem (asObj s) "users"))

def serverIdsOf (j : Json) : List String :=
  (serversOf j).map (fun p => p.1)

def invalidJsonFormatResp : Response :=
  { status := 400, body := "Invalid json format.", contentType := none }

def incorrectAuthResp : Response :=
  { status := 403, body := "Incorrect auth token.", contentType := none }

def postOkResp : Response :=
  { status := 200, body := "Successfully updated user and last-seen list.",
    contentType := some "text/plain" }

/-- The part of `LastOnlineList.on_post` after the body has been decoded:
schema validation, the auth-token comparison, and the wholesale replacement
of `self.server_user_list` by the dict comprehension.  A non-object payload
passes draft-04 validation and then raises `TypeError` at the subscript
access `new_user_data["auth_token"]`. -/
def processDecoded (cfgToken : String) (st : Store) (j : Json) : PostOutcome :=
  if schemaValidate j = false then
    PostOutcome.normal st invalidJsonFormatResp
  else
    match j with
    | Json.obj fs =>
        if jsonEqStr cfgToken (getItem fs "auth_token") = false then
          PostOutcome.normal st incorrectAuthResp
        else
          PostOutcome.normal (buildDict (serversOf (Json.obj fs))) postOkResp
    | _ => PostOutcome.uncaught PyErr.typeError

/- ### A model of `json.loads` -/

def isWsCh (c : Char) : Bool :=
  c == ' ' || c == '\t' || c == '\n' || c == '\r'

def skipWs : List Char → List Char
  | [] => []
  | c :: cs => if isWsCh c then skipWs cs else c :: cs

def hexVal (c : Char) : Option Nat :=
  if '0' ≤ c && c ≤ '9' then some (c.toNat - 48)
  else if 'a' ≤ c && c ≤ 'f' then some (c.toNat - 87)
  else if 'A' ≤ c && c ≤ 'F' then some (c.toNat - 55)
  else none

def escDecode (e : Char) : Option Char :=
  if e == '"' then some '"'
  else if e == '\\' then some '\\'
  else if e == '/' then some '/'
  else if e == 'b' then some (Char.ofNat 8)
  else if e == 'f' then some (Char.ofNat 12)
  else if e == 'n' then some '\n'
  else if e == 'r' then some '\r'
  else if e == 't' then some '\t'
  else none

/-- Parse the body of a JSON string literal (after the opening quote),
returning the decoded characters and the input after the closing quote.
Unescaped control characters are rejected, as by Python in strict mode.  A
high-surrogate escape followed by a low-surrogate escape is combined into
one character, as Python does; an unpaired surrogate escape would give a
Python string holding a lone surrogate code unit, which has no counterpart
in this model's strings, so such inputs are left outside the model (the
parse fails). -/
def parseStrBody : Nat → List Char → Option (List Char × List Char)
  | 0, _ => none
  | _, [] => none
  | fuel + 1, c :: cs =>
    if c == '"' then some ([], cs)
    else if c == '\\' then
      match cs with
      | [] => none
      | e :: cs2 =>
        if e == 'u' then
          match cs2 with
          | a :: b :: c2 :: d :: cs3 =>
            match hexVal a, hexVal b, hexVal c2, hexVal d with
            | some ha, some hb, some hc, some hd =>
              let n := ((ha * 16 + hb) * 16 + hc) * 16 + hd
              if 55296 ≤ n ∧ n ≤ 56319 then
                match cs3 with
                | '\\' :: 'u' :: a2 :: b2 :: c3 :: d2 :: cs4 =>
                  match hexVal a2, hexVal b2, hexVal c3, hexVal d2 with
                  | some ea, some eb, some ec, some ed =>
                    let m := ((ea * 16 + eb) * 16 + ec) * 16 + ed
                    if 56320 ≤ m ∧ m ≤ 57343 then
                      match parseStrBody fuel cs4 with
                      | some (content, r) =>
                          some (Char.ofNat
                              (65536 + (n - 55296) * 1024 + (m - 56320))
                            :: content, r)
                      | none => none
                    else none
                  | _, _, _, _ => none
                | _ => none
              else if 56320 ≤ n ∧ n ≤ 57343 then none
              else
                match parseStrBody fuel cs3 with
                | some (content, r) => some (Char.ofNat n :: content, r)
                | none => none
            | _, _, _, _ => none
          | _ => none
        else
          match escDecode e with
          | some ch =>
            match parseStrBody fuel cs2 with
            | some (content, r) => some (ch :: content, r)
            | none => none
          | none => none
    else if c.toNat < 32 then none
    else
      match parseStrBody fuel cs with
      | some (content, r) => some (c :: content, r)
      | none => none

def digitsVal (ds : List Char) : Nat :=
  ds.foldl (fun n c => 10 * n + (c.toNat - 48)) 0

/-- The integer part of a JSON number: `0`, or a nonzero digit followed by
digits (leading zeros are not part of the token, as in Python's NUMBER_RE). -/
def parseIntPart : List Char → Option (List Char × List Char)
  | [] => none
  | c :: rest =>
    if c == '0' then some ([c], rest)
    else if '1' ≤ c && c ≤ '9' then
      let p := rest.span isDigitCh
      some (c :: p.1, p.2)
    else none

/-- A fraction part `.digits`, if present at the head of the input. -/
def parseFracPart (cs : List Char) : Option (List Char) × List Char :=
  match cs with
  | '.' :: rest =>
    let p := rest.span isDigitCh
    if p.1.isEmpty then (none, cs) else (some ('.' :: p.1), p.2)
  | _ => (none, cs)

/-- An exponent part `[eE][-+]?digits`, if present at the head of the input. -/
def parseExpPart (cs : List Char) : Option (List Char) × List Char :=
  match cs with
  | e :: rest =>
    if e == 'e' || e == 'E' then
      match rest with
      | s :: rest2 =>
        if s == '+' || s == '-' then
          let p := rest2.span isDigitCh
          if p.1.isEmpty then (none, cs) else (some (e :: s :: p.1), p.2)
        else
          let p := rest.span isDigitCh
          if p.1.isEmpty then (none, cs) else (some (e :: p.1), p.2)
      | [] => (none, cs)
    else (none, cs)
  | [] => (none, cs)

/-- A JSON number at the head of the input.  Without fraction and exponent it
is an integer; otherwise the lexeme is kept as a float literal.  The
non-standard -Infinity constant accepted by Python's scanner at a minus sign
is also recognised here. -/
def parseNumber (cs : List Char) : Option (Json × List Char) :=
  let core := fun (sign : Bool) (cs2 : List Char) =>
    match parseIntPart cs2 with
    | none => none
    | some (ip, r1) =>
      match parseFracPart r1 with
      | (fp, r2) =>
        match parseExpPart r2 with
        | (ep, r3) =>
          match fp, ep with
          | none, none =>
            let n : Int := Int.ofNat (digitsVal ip)
            some (Json.num (if sign then -n else n), r3)
          | _, _ =>
            let lexeme := (if sign then ['-'] else []) ++ ip ++
              (match fp with | some l => l | none => []) ++
              (match ep with | some l => l | none => [])
            some (Json.fnum (String.mk lexeme), r3)
  match cs with
  | '-' :: 'I' :: 'n' :: 'f' :: 'i' :: 'n' :: 'i' :: 't' :: 'y' :: r2 =>
    some (Json.fnum "-Infinity", r2)
  | '-' :: rest => core true rest
  | _ => core false cs

mutual

/-- One JSON value at the head of the input (leading whitespace allowed). -/
def parseVal : Nat → List Char → Option (Json × List Char)
  | 0, _ => none
  | fuel + 1, cs =>
    match skipWs cs with
    | 'n' :: 'u' :: 'l' :: 'l' :: rest => some (Json.null, rest)
    | 't' :: 'r' :: 'u' :: 'e' :: rest => some (Json.bool true, rest)
    | 'f' :: 'a' :: 'l' :: 's' :: 'e' :: rest => some (Json.bool false, rest)
    | 'N' :: 'a' :: 'N' :: rest => some (Json.fnum "NaN", rest)
    | 'I' :: 'n' :: 'f' :: 'i' :: 'n' :: 'i' :: 't' :: 'y' :: rest =>
      some (Json.fnum "Infinity", rest)
    | '"' :: rest =>
      match parseStrBody fuel rest with
      | some (content, r) => some (Json.str (String.mk content), r)
      | none => none
    | '[' :: rest =>
      (match skipWs rest with
       | ']' :: r2 => some (Json.arr [], r2)
       | _ =>
         match parseArrItems fuel rest with
         | some (items, r2) => some (Json.arr items, r2)
         | none => none)
    | c :: rest =>
      if c == Char.ofNat 123 then
        match skipWs rest with
        | c2 :: r2 =>
          if c2 == Char.ofNat 125 then some (Json.obj [], r2)
          else
            match parseObjItems fuel rest with
            | some (pairs, r3) => some (Json.obj (buildDict pairs), r3)
            | none => none
        | [] => none
      else parseNumber (c :: rest)
    | [] => none

/-- The comma-separated items of a non-empty array, up to and including the
closing bracket. -/
def parseArrItems : Nat → List Char → Option (List Json × List Char)
  | 0, _ => none
  | fuel + 1, cs =>
    match parseVal fuel cs with
    | none => none
    | some (v, r1) =>
      match skipWs r1 with
      | ',' :: r2 =>
        (match parseArrItems fuel r2 with
         | some (items, r3) => some (v :: items, r3)
         | none => none)
      | ']' :: r2 => some ([v], r2)
      | _ => none

/-- The comma-separated members of a non-empty object, up to and including
the closing brace. -/
def parseObjItems : Nat → List Char →
    Option (List (String × Json) × List Char)
  | 0, _ => none
  | fuel + 1, cs =>
    match skipWs cs with
    | '"' :: r0 =>
      (match parseStrBody fuel r0 with
       | none => none
       | some (key, r1) =>
         match skipWs r1 with
         | ':' :: r2 =>
           (match parseVal fuel r2 with
            | none => none
            | some (v, r3) =>
              match skipWs r3 with
              | ',' :: r4 =>
                (match parseObjItems fuel r4 with
                 | some (pairs, r5) =>
                     some ((String.mk key, v) :: pairs, r5)
                 | none => none)
              | c :: r4 =>
                if c == Char.ofNat 125 then
                  some ([(String.mk key, v)], r4)
                else none
              | [] => none)
         | _ => none)
    | _ => none

end

theorem find?_map_update (d : List (String × Json)) (k c : String) (v : Json)
    (hck : c ≠ k) :
    (d.map (fun p => if p.1 == k then (k, v) else p)).find?
        (fun p => p.1 == c) =
      d.find? (fun p => p.1 == c) := by
  induction d with
  | nil => rfl
  | cons p d ih =>
    rw [List.map_cons]
    by_cases hk : p.1 = k
    · have e1 : (if p.1 == k then (k, v) else p) = ((k, v) : String × Json) := by
        simp [hk]
      have h2 : ¬ ((fun q : String × Json => q.1 == c) ((k, v))) := by
        simp
        exact fun h => hck h.symm
      have h3 : ¬ ((fun q : String × Json => q.1 == c) p) := by
        simp [hk]
        exact fun h => hck h.symm
      rw [e1,
        List.find?_cons_of_neg (p := fun q : String × Json => q.1 == c) _ h2,
        List.find?_cons_of_neg (p := fun q : String × Json => q.1 == c) _ h3,
        ih]
    · have e1 : (if p.1 == k then (k, v) else p) = p := by simp [hk]
      rw [e1]
      by_cases hc : p.1 = c
      · have h2 : ((fun q : String × Json => q.1 == c) p) := by simp [hc]
        rw [List.find?_cons_of_pos (p := fun q : String × Json => q.1 == c)
            _ h2,
          List.find?_cons_of_pos (p := fun q : String × Json => q.1 == c)
            _ h2]
      · have h2 : ¬ ((fun q : String × Json => q.1 == c) p) := by simp [hc]
        rw [List.find?_cons_of_neg (p := fun q : String × Json => q.1 == c)
            _ h2,
          List.find?_cons_of_neg (p := fun q : String × Json => q.1 == c)
            _ h2,
          ih]

theorem find?_map_update_self (d : List (String × Json)) (k : String)
    (v : Json) (h : d.any (fun p => p.1 == k) = true) :
    (d.map (fun p => if p.1 == k then (k, v) else p)).find?
        (fun p => p.1 == k) = some (k, v) := by
  induction d with
  | nil => simp at h
  | cons p d ih =>
    rw [List.map_cons]
    by_cases hk : p.1 = k
    · have e1 : (if p.1 == k then (k, v) else p) = ((k, v) : String × Json) := by
        simp [hk]
      have h2 : ((fun q : String × Json => q.1 == k) ((k, v))) := by simp
      rw [e1,
        List.find?_cons_of_pos (p := fun q : String × Json => q.1 == k) _ h2]
    · have e1 : (if p.1 == k then (k, v) else p) = p := by simp [hk]
      have h3 : ¬ ((fun q : String × Json => q.1 == k) p) := by simp [hk]
      have hpk : (p.1 == k) = false := beq_eq_false_iff_ne.mpr hk
      rw [List.any_cons, hpk] at h
      have h' : d.any (fun p => p.1 == k) = true := by simpa using h
      rw [e1,
        List.find?_cons_of_neg (p := fun q : String × Json => q.1 == k) _ h3,
        ih h']

theorem find?_eq_none_of_not_any (d : List (String × Json)) (k : String)
    (h : d.any (fun p => p.1 == k) = false) :
    d.find? (fun p => p.1 == k) = none := by
  induction d with
  | nil => rfl
  | cons p d ih =>
    rw [List.any_cons] at h
    have h1 : (p.1 == k) = false := by
      cases hpk : (p.1 == k) with
      | false => rfl
      | true => rw [hpk] at h; simp at h
    rw [h1] at h
    have h2 : d.any (fun p => p.1 == k) = false := by simpa using h
    have hneg : ¬ ((fun q : String × Json => q.1 == k) p) := by simp [h1]
    rw [List.find?_cons_of_neg (p := fun q : String × Json => q.1 == k)
        _ hneg]
    exact ih h2

/-- Looking a key up after a Python dict update. -/
theorem dictGet?_insert (d : List (String × Json)) (k c : String) (v : Json) :
    dictGet? (dictInsert d k v) c = if c = k then some v else dictGet? d c := by
  unfold dictInsert dictGet?
  by_cases hany : d.any (fun p => p.1 == k) = true
  · rw [if_pos hany]
    by_cases hck : c = k
    · subst hck
      rw [if_pos rfl, find?_map_update_self d c v hany]
      rfl
    · rw [if_neg hck, find?_map_update d k c v hck]
  · have hany' : d.any (fun p => p.1 == k) = false := by
      cases hb : d.any (fun p => p.1 == k) with
      | false => rfl
      | true => exact absurd hb hany
    rw [if_neg hany]
    by_cases hck : c = k
    · subst hck
      rw [if_pos rfl, List.find?_append, find?_eq_none_of_not_any d c hany']
      have h2 : ((fun q : String × Json => q.1 == c) ((c, v))) := by simp
      rw [List.find?_cons_of_pos (p := fun q : String × Json => q.1 == c)
          _ h2]
      rfl
    · rw [if_neg hck, List.find?_append]
      have h2 : ¬ ((fun q : String × Json => q.1 == c) ((k, v))) := by
        simp
        exact fun h => hck h.symm
      rw [List.find?_cons_of_neg (p := fun q : String × Json => q.1 == c)
          _ h2]
      cases hfd : d.find? (fun p => p.1 == c) <;> rfl

theorem lastVal_from (l : List (String × Json)) (k : String)
    (acc : Option Json) :
    l.foldl (fun a p => if p.1 == k then some p.2 else a) acc =
      (match lastVal l k with
       | some v => some v
       | none => acc) := by
  induction l generalizing acc with
  | nil => simp [lastVal]
  | cons p l ih =>
    have hcons : lastVal (p :: l) k =
        (match lastVal l k with
         | some v => some v
         | none => if p.1 == k then some p.2 else none) := by
      unfold lastVal
      simp only [List.foldl_cons]
      exact ih (if p.1 == k then some p.2 else none)
    simp only [List.foldl_cons]
    rw [ih (if p.1 == k then some p.2 else acc), hcons]
    cases lastVal l k with
    | some v => rfl
    | none => cases h : (p.1 == k) <;> simp [h]

/-- A Python dict comprehension maps each key to the value of the LAST pair
carrying it. -/
theorem dictGet?_buildDict (l : List (String × Json)) (k : String) :
    dictGet? (buildDict l) k =
      (match lastVal l k with
       | some v => some v
       | none => none) := by
  suffices h : ∀ d : List (String × Json),
      dictGet? (l.foldl (fun d p => dictInsert d p.1 p.2) d) k =
        (match lastVal l k with
         | some v => some v
         | none => dictGet? d k) by
    have := h []
    simpa [buildDict, dictGet?, List.find?] using this
  induction l with
  | nil => intro d; simp [lastVal]
  | cons p l ih =>
    intro d
    have hcons : lastVal (p :: l) k =
        (match lastVal l k with
         | some v => some v
         | none => if p.1 == k then some p.2 else none) := by
      unfold lastVal
      simp only [List.foldl_cons]
      exact lastVal_from l k (if p.1 == k then some p.2 else none)
    simp only [List.foldl_cons]
    rw [ih (dictInsert d p.1 p.2), hcons]
    cases hlv : lastVal l k with
    | some v => rfl
    | none =>
      rw [dictGet?_insert]
      by_cases hk : k = p.1
      · subst hk; simp
      · have : (p.1 == k) = false := by
          simp
          exact fun h => hk h.symm
        simp [hk, this]

theorem lastVal_eq_none (l : List (String × Json)) (k : String)
    (h : ∀ p ∈ l, p.1 ≠ k) : lastVal l k = none := by
  induction l with
  | nil => rfl
  | cons p l ih =>
    have hp : (p.1 == k) = false := by simp [h p (by simp)]
    have : lastVal (p :: l) k =
        (match lastVal l k with
         | some v => some v
         | none => if p.1 == k then some p.2 else none) := by
      unfold lastVal
      simp only [List.foldl_cons]
      exact lastVal_from l k (if p.1 == k then some p.2 else none)
    rw [this, ih (fun q hq => h q (by simp [hq]))]
    simp [hp]

/-- Keys absent from the pair list are absent from the dict built from it. -/
theorem dictGet?_buildDict_none (l : List (String × Json)) (k : String)
    (h : k ∉ l.map (fun p => p.1)) : dictGet? (buildDict l) k = none := by
  rw [dictGet?_buildDict, lastVal_eq_none]
  intro p hp hpk
  exact h (List.mem_map.mpr ⟨p, hp, hpk⟩)

/-- When `required` holds for a key, its `properties` check is the check of
the stored value. -/
theorem jPropOk_of_hasKey (fs : List (String × Json)) (k : String)
    (chk : Json → Bool) (h : jHasKey fs k = true) :
    jPropOk fs k chk = chk (getItem fs k) := by
  unfold jHasKey at h
  unfold jPropOk getItem
  cases hv : dictGet? fs k with
  | some v => rfl
  | none => rw [hv] at h; simp at h

/- ### Lemmas about the sort and the escaping -/

theorem jsonEqStr_eq {s : String} {v : Json} (h : jsonEqStr s v = true) :
    v = Json.str s := by
  cases v <;> simp_all [jsonEqStr]

theorem processDecoded_schemaFail (cfg : String) (st : Store) (j : Json)
    (h : schemaValidate j = false) :
    processDecoded cfg st j = PostOutcome.normal st invalidJsonFormatResp := by
  simp [processDecoded, h]

theorem processDecoded_success (cfg : String) (st : Store)
    (fs : List (String × Json)) (h1 : schemaValidate (Json.obj fs) = true)
    (h2 : jsonEqStr cfg (getItem fs "auth_token") = true) :
    processDecoded cfg st (Json.obj fs) =
      PostOutcome.normal (buildDict (serversOf (Json.obj fs))) postOkResp := by
  simp [processDecoded, h1, h2]

theorem processDecoded_badAuth (cfg : String) (st : Store)
    (fs : List (String × Json)) (h1 : schemaValidate (Json.obj fs) = true)
    (h2 : jsonEqStr cfg (getItem fs "auth_token") = false) :
    processDecoded cfg st (Json.obj fs) =
      PostOutcome.normal st incorrectAuthResp := by
  simp [processDecoded, h1, h2]

/-- A non-object payload sails through draft-04 validation and then raises
`TypeError` at the `new_user_data["auth_token"]` subscript. -/
theorem processDecoded_nonObj (cfg : String) (st : Store) (j : Json)
    (hobj : isObjJson j = false) :
    processDecoded cfg st j = PostOutcome.uncaught PyErr.typeError := by
  cases j <;> simp_all [processDecoded, schemaValidate, isObjJson]

/- ### The shape of an otherwise-valid payload, pattern aside -/

/-- A `servers` entry of the right shape except that its `server_id` is only
required to be a string (no pattern constraint). -/
def shapedServerNoPat : Json → Bool
  | Json.obj fs =>
      (jHasKey fs "server_id" && jHasKey fs "users") &&
      jPropOk fs "server_id" isJsonStr &&
      jPropOk fs "users" usersPropOk
  | _ => false

/-- A decoded payload that is valid except possibly for the `server_id`
pattern, and whose auth token equals the configured secret. -/
def shapedPayload (cfg : String) : Json → Bool
  | Json.obj fs =>
      (jHasKey fs "servers" && jHasKey fs "auth_token") &&
      (match getItem fs "servers" with
       | Json.arr ss => ss.all shapedServerNoPat
       | _ => false) &&
      jsonEqStr cfg (getItem fs "auth_token")
  | _ => false

theorem all_map_eq {α β : Type} (l : List α) (f : α → β) (p : β → Bool) :
    (l.map f).all p = l.all (fun x => p (f x)) := by
  induction l with
  | nil => rfl
  | cons a l ih =>
    simp only [List.map_cons, List.all_cons]
    rw [ih]

theorem all_congr_of_mem {α : Type} (l : List α) (f g : α → Bool)
    (h : ∀ x ∈ l, f x = g x) : l.all f = l.all g := by
  induction l with
  | nil => rfl
  | cons a l ih =>
    simp only [List.all_cons]
    rw [h a (by simp), ih (fun x hx => h x (by simp [hx]))]

theorem serverIdPropOk_of_str (v : Json) (h : isJsonStr v = true) :
    serverIdPropOk v = matchesServerIdPat (asString v) := by
  cases v <;> simp_all [isJsonStr, serverIdPropOk, asString]

/-- On a shaped `servers` entry, schema validity is exactly the pattern test
on its `server_id`. -/
theorem validServerItem_of_shaped (s : Json) (h : shapedServerNoPat s = true) :
    validServerItem s =
      matchesServerIdPat (asString (getItem (asObj s) "server_id")) := by
  cases s with
  | obj fs =>
    simp only [shapedServerNoPat, Bool.and_eq_true] at h
    obtain ⟨⟨⟨hA, hB⟩, hC⟩, hD⟩ := h
    rw [jPropOk_of_hasKey fs "server_id" isJsonStr hA] at hC
    have e : validServerItem (Json.obj fs) =
        ((jHasKey fs "server_id" && jHasKey fs "users") &&
          jPropOk fs "server_id" serverIdPropOk &&
          jPropOk fs "users" usersPropOk) := rfl
    rw [e, jPropOk_of_hasKey fs "server_id" serverIdPropOk hA]
    simp only [hA, hB, hD, Bool.and_true, Bool.true_and]
    rw [serverIdPropOk_of_str _ hC]
    rfl
  | null => simp [shapedServerNoPat] at h
  | bool b => simp [shapedServerNoPat] at h
  | num n => simp [shapedServerNoPat] at h
  | fnum s => simp [shapedServerNoPat] at h
  | str s => simp [shapedServerNoPat] at h
  | arr l => simp [shapedServerNoPat] at h

/-- On a shaped payload, schema validity is exactly the conjunction of the
pattern tests over all its server ids. -/
theorem schemaValidate_shaped (cfg : String) (fs : List (String × Json))
    (h : shapedPayload cfg (Json.obj fs) = true) :
    schemaValidate (Json.obj fs) =
      (serverIdsOf (Json.obj fs)).all matchesServerIdPat := by
  simp only [shapedPayload, Bool.and_eq_true] at h
  obtain ⟨⟨⟨h1, h2⟩, h3⟩, h4⟩ := h
  cases hsrv : getItem fs "servers" with
  | arr ss =>
    rw [hsrv] at h3
    have htok : getItem fs "auth_token" = Json.str cfg := jsonEqStr_eq h4
    have e : schemaValidate (Json.obj fs) =
        ((jHasKey fs "servers" && jHasKey fs "auth_token") &&
          jPropOk fs "servers" serversSchemaOk &&
          jPropOk fs "auth_token" isJsonStr) := rfl
    rw [e, jPropOk_of_hasKey fs "servers" serversSchemaOk h1,
      jPropOk_of_hasKey fs "auth_token" isJsonStr h2, hsrv, htok]
    simp only [h1, h2, isJsonStr, Bool.and_true, Bool.true_and,
      serversSchemaOk]
    have hstep : ss.all validServerItem =
        ss.all (fun s =>
          matchesServerIdPat (asString (getItem (asObj s) "server_id"))) :=
      all_congr_of_mem ss _ _
        (fun s hs =>
          validServerItem_of_shaped s (List.all_eq_true.mp h3 s hs))
    rw [hstep]
    unfold serverIdsOf serversOf
    rw [List.map_map]
    have e2 : asObj (Json.obj fs) = fs := rfl
    rw [e2, hsrv]
    have e3 : asArr (Json.arr ss) = ss := rfl
    rw [e3, all_map_eq]
    rfl
  | null => rw [hsrv] at h3; simp at h3
  | bool b => rw [hsrv] at h3; simp at h3
  | num n => rw [hsrv] at h3; simp at h3
  | fnum s => rw [hsrv] at h3; simp at h3
  | str s => rw [hsrv] at h3; simp at h3
  | obj g => rw [hsrv] at h3; simp at h3

/- ### Concrete data for witnesses and counterexamples -/

/-- A user record whose username carries markup. -/
def user1 : Json :=
  Json.obj [("username", Json.str "<script>"), ("icon_url", Json.str "u1"),
    ("last_seen_time", Json.str "t1")]

/-- A valid payload naming only community "23", token "tok". -/
def c1Fields : List (String × Json) :=
  [("servers", Json.arr [Json.obj [("server_id", Json.str "23"),
      ("users", Json.arr [])]]),
   ("auth_token", Json.str "tok")]

/-- A payload valid except that its server id "5" has a single digit. -/
def c2Fields : List (String × Json) :=
  [("servers", Json.arr [Json.obj [("server_id", Json.str "5"),
      ("users", Json.arr [])]]),
   ("auth_token", Json.str "tok")]

/-- A structurally valid payload with a wrong auth token. -/
def c5Fields : List (String × Json) :=
  [("servers", Json.arr []), ("auth_token", Json.str "bad")]

/-- C1, counterexample: community "10" is in the store before a successful
authenticated write naming only "23"; the claim says "10" keeps its list and
is never removed, but the write succeeds with 200 and "10" is gone from the
store. -/
theorem claim1_counterexample :
    (processDecoded "tok" [("10", Json.arr [])]
      (Json.obj c1Fields)).statusOf = some 200 ∧
    ((processDecoded "tok" [("10", Json.arr [])]
      (Json.obj c1Fields)).storeOf.map
        (fun st => (dictGet? st "10").isSome)) = some false := by
  constructor <;> rfl

/-- C1, amended: a successful authenticated write replaces the whole store
with the dict built from the request's `servers` array; every community id
not named in the current request is absent from the store afterwards (rather
than keeping its previous presence list). -/
theorem claim1_theorem (cfg : String) (st : Store) (fs : List (String × Json))
    (h1 : schemaValidate (Json.obj fs) = true)
    (h2 : jsonEqStr cfg (getItem fs "auth_token") = true) :
    processDecoded cfg st (Json.obj fs) =
      PostOutcome.normal (buildDict (serversOf (Json.obj fs))) postOkResp ∧
    ∀ c : String, c ∉ serverIdsOf (Json.obj fs) →
      dictGet? (buildDict (serversOf (Json.obj fs))) c = none := by
  refine ⟨processDecoded_success cfg st fs h1 h2, ?_⟩
  intro c hc
  exact dictGet?_buildDict_none _ _ hc

/-- C1, witness: the amended claim at the concrete write of
`claim1_counterexample`. -/
theorem claim1_witness :
    processDecoded "tok" [("10", Json.arr [])] (Json.obj c1Fields) =
      PostOutcome.normal (buildDict (serversOf (Json.obj c1Fields)))
        postOkResp ∧
    dictGet? (buildDict (serversOf (Json.obj c1Fields))) "10" = none := by
  have h := claim1_theorem "tok" [("10", Json.arr [])] c1Fields
    (by decide) (by decide)
  exact ⟨h.1, h.2 "10" (by decide)⟩

/-- C2, counterexample: a payload that is valid except that its `server_id`
is the single digit "5", with the correct token; the claim says it succeeds
with 200, but the schema pattern `^[1-9][0-9]+$` demands two digits, so the
code rejects it with 400 "Invalid json format." and leaves the store
unchanged. -/
theorem claim2_counterexample :
    (processDecoded "tok" [] (Json.obj c2Fields)).statusOf ≠ some 200 ∧
    processDecoded "tok" [] (Json.obj c2Fields) =
      PostOutcome.normal [] invalidJsonFormatResp := by
  constructor
  · decide
  · rfl

/-- C2, amended: for an otherwise-valid payload carrying the correct token,
the request succeeds with 200 exactly when every `server_id` matches
`^[1-9][0-9]+$` (at least TWO digits, no leading zero) — single-digit ids
such as "5" are rejected — and otherwise the response is 400 with body
"Invalid json format." and the store is unchanged. -/
theorem claim2_theorem (cfg : String) (st : Store) (j : Json)
    (h : shapedPayload cfg j = true) :
    ((processDecoded cfg st j).statusOf = some 200 ↔
      (serverIdsOf j).all matchesServerIdPat = true) ∧
    ((serverIdsOf j).all matchesServerIdPat = false →
      processDecoded cfg st j =
        PostOutcome.normal st invalidJsonFormatResp) := by
  cases j with
  | obj fs =>
    have hsv := schemaValidate_shaped cfg fs h
    have h4 : jsonEqStr cfg (getItem fs "auth_token") = true := by
      simp only [shapedPayload, Bool.and_eq_true] at h
      exact h.2
    refine ⟨⟨?_, ?_⟩, ?_⟩
    · intro h200
      by_contra hne
      have hfalse : (serverIdsOf (Json.obj fs)).all matchesServerIdPat
          = false := by
        cases hx : (serverIdsOf (Json.obj fs)).all matchesServerIdPat
        · rfl
        · exact absurd hx hne
      have hschema : schemaValidate (Json.obj fs) = false := by
        rw [hsv, hfalse]
      rw [processDecoded_schemaFail cfg st _ hschema] at h200
      simp [PostOutcome.statusOf, invalidJsonFormatResp] at h200
    · intro hall
      have hschema : schemaValidate (Json.obj fs) = true := by rw [hsv, hall]
      rw [processDecoded_success cfg st fs hschema h4]
      rfl
    · intro hfail
      have hschema : schemaValidate (Json.obj fs) = false := by
        rw [hsv, hfail]
      exact processDecoded_schemaFail cfg st _ hschema
  | null => simp [shapedPayload] at h
  | bool b => simp [shapedPayload] at h
  | num n => simp [shapedPayload] at h
  | fnum s => simp [shapedPayload] at h
  | str s => simp [shapedPayload] at h
  | arr l => simp [shapedPayload] at h

/-- C2, witness: the amended claim applied to the single-digit payload. -/
theorem claim2_witness :
    processDecoded "tok" [] (Json.obj c2Fields) =
      PostOutcome.normal [] invalidJsonFormatResp :=
  ( claim2_theorem "tok" [] (Json.obj c2Fields) (by decide)).2 (by decide)

/-- C4, counterexample: a payload whose top level is an array; the claim
says the handler answers 400 "Invalid json format.", but draft-04 `required`
is ignored on non-objects, so validation passes and the auth-token subscript
raises an uncaught `TypeError`. -/
theorem claim4_counterexample :
    processDecoded "tok" [] (Json.arr []) =
      PostOutcome.uncaught PyErr.typeError ∧
    (processDecoded "tok" [] (Json.arr [])).statusOf ≠ some 400 := by
  constructor
  · rfl
  · decide

/-- C4, amended: an OBJECT payload failing the schema gets 400 with body
"Invalid json format." and an unchanged store, and a single invalid `servers`
entry anywhere fails the whole request; but a payload whose top level is not
an object passes draft-04 validation and then raises an uncaught `TypeError`
at the auth-token access. -/
theorem claim4_theorem (cfg : String) :
    (∀ (st : Store) (j : Json), isObjJson j = false →
      schemaValidate j = true ∧
      processDecoded cfg st j = PostOutcome.uncaught PyErr.typeError) ∧
    (∀ (st : Store) (j : Json), schemaValidate j = false →
      processDecoded cfg st j =
        PostOutcome.normal st invalidJsonFormatResp) ∧
    (∀ (st : Store) (fs : List (String × Json)) (ss : List Json) (s : Json),
      getItem fs "servers" = Json.arr ss → s ∈ ss →
      validServerItem s = false →
      processDecoded cfg st (Json.obj fs) =
        PostOutcome.normal st invalidJsonFormatResp) := by
  refine ⟨?_, ?_, ?_⟩
  · intro st j hobj
    refine ⟨?_, processDecoded_nonObj cfg st j hobj⟩
    cases j <;> simp_all [schemaValidate, isObjJson]
  · intro st j h
    exact processDecoded_schemaFail cfg st j h
  · intro st fs ss s hs hmem hinv
    apply processDecoded_schemaFail
    have e : schemaValidate (Json.obj fs) =
        ((jHasKey fs "servers" && jHasKey fs "auth_token") &&
          jPropOk fs "servers" serversSchemaOk &&
          jPropOk fs "auth_token" isJsonStr) := rfl
    have hkey : jHasKey fs "servers" = true := by
      unfold jHasKey
      unfold getItem at hs
      cases hd : dictGet? fs "servers" with
      | some v => simp
      | none =>
        rw [hd] at hs
        exact absurd hs (by simp)
    have hprop : jPropOk fs "servers" serversSchemaOk = false := by
      rw [jPropOk_of_hasKey fs "servers" serversSchemaOk hkey, hs]
      have e2 : serversSchemaOk (Json.arr ss) = ss.all validServerItem := rfl
      rw [e2]
      cases hx : ss.all validServerItem
      · rfl
      · exact absurd (List.all_eq_true.mp hx s hmem) (by simp [hinv])
    rw [e, hprop]
    simp

/-- C4, witness: the amended claim at the top-level-array payload. -/
theorem claim4_witness :
    schemaValidate (Json.arr []) = true ∧
    processDecoded "tok" [] (Json.arr []) =
      PostOutcome.uncaught PyErr.typeError :=
  ( claim4_theorem "tok").1 [] (Json.arr []) (by decide)

/-- C5: a structurally valid payload whose auth token differs from the
configured secret gets 403 with body "Incorrect auth token." and an
unchanged store; and any schema-invalid payload gets the 400 schema
rejection regardless of its token, so the token check runs only after
validation succeeds. -/
theorem claim5_theorem (cfg : String) (st : Store) (fs : List (String × Json))
    (h1 : schemaValidate (Json.obj fs) = true)
    (h2 : jsonEqStr cfg (getItem fs "auth_token") = false) :
    processDecoded cfg st (Json.obj fs) =
      PostOutcome.normal st incorrectAuthResp ∧
    ∀ (st2 : Store) (j : Json), schemaValidate j = false →
      processDecoded cfg st2 j =
        PostOutcome.normal st2 invalidJsonFormatResp :=
  ⟨processDecoded_badAuth cfg st fs h1 h2,
   fun st2 j h => processDecoded_schemaFail cfg st2 j h⟩

/-- C5, witness: a valid payload with token "bad" against secret "tok" is
rejected with 403 and the prior store survives. -/
theorem claim5_witness :
    processDecoded "tok" [("10", Json.arr [])] (Json.obj c5Fields) =
      PostOutcome.normal [("10", Json.arr [])] incorrectAuthResp :=
  ( claim5_theorem "tok" [("10", Json.arr [])] c5Fields
    (by decide) (by decide)).1

/-- A valid payload with two entries for "10"; the second carries the empty
user list. -/
def fsA : List (String × Json) :=
  [("servers", Json.arr [
      Json.obj [("server_id", Json.str "10"), ("users", Json.arr [user1])],
      Json.obj [("server_id", Json.str "10"), ("users", Json.arr [])]]),
   ("auth_token", Json.str "tok")]

/-- C10: a successful write whose `servers` array carries several entries
with the same `server_id` leaves the store mapping that id to the `users`
list of the LAST such entry, and the request still succeeds with 200. -/
theorem claim10_theorem (cfg : String) (st : Store)
    (fs : List (String × Json)) (c : String) (us : Json)
    (h1 : schemaValidate (Json.obj fs) = true)
    (h2 : jsonEqStr cfg (getItem fs "auth_token") = true)
    (hlast : lastVal (serversOf (Json.obj fs)) c = some us) :
    processDecoded cfg st (Json.obj fs) =
      PostOutcome.normal (buildDict (serversOf (Json.obj fs))) postOkResp ∧
    dictGet? (buildDict (serversOf (Json.obj fs))) c = some us := by
  refine ⟨processDecoded_success cfg st fs h1 h2, ?_⟩
  rw [dictGet?_buildDict, hlast]

/-- C10, witness: the duplicate-id payload `fsA` succeeds and "10" ends up
mapped to the users of the second (last) duplicate entry. -/
theorem claim10_witness :
    processDecoded "tok" [] (Json.obj fsA) =
      PostOutcome.normal (buildDict (serversOf (Json.obj fsA))) postOkResp ∧
    dictGet? (buildDict (serversOf (Json.obj fsA))) "10" =
      some (Json.arr []) :=
  claim10_theorem "tok" [] fsA "10" (Json.arr [])
    (by decide) (by decide) (by rfl)
